import Mathlib

/-!
Shallow embedding of the subscription-manager back office (tRPC handlers over a
relational store).  Tables are Lean lists of rows; the store-assigned serial ids
are modelled by per-table counters; timestamps are abstract instants (naturals)
supplied to each handler as a `now` argument (the source obtains them from
`new Date()` / the column default `defaultNow()`).  Each fallible handler
returns `Except Err (DB × row)`; a thrown JS `Error` is an `Err` value whose
constructor follows the spec's error taxonomy and whose message follows the
source's message text.  The `numeric(10,2)` price column stores decimal text
(the source writes `input.price.toString()` and reads it back with
`parseFloat`); prices accepted at the input boundary (non-negative, scale 2)
are modelled exactly as integer counts of cents.
-/

/-- Error taxonomy of the handlers (spec section 7), carrying the message text
thrown by the source. -/
inductive Err where
  | NotFound (msg : String)
  | Conflict (msg : String)
  | InvalidState (msg : String)
  | QuotaExceeded (msg : String)
  deriving DecidableEq, Repr

deriving instance DecidableEq for Except

/-- Row of `subscription_plans`: the `numeric(10,2)` price column holds decimal
text, exactly as drizzle returns it to the handlers. -/
structure SubscriptionPlanRow where
  id : Nat
  name : String
  description : Option String
  price : String
  max_api_keys : Option Nat
  max_monthly_calls : Option Nat
  created_at : Nat
  deriving DecidableEq, Repr

/-- Row of `users`. -/
structure UserRow where
  id : Nat
  email : String
  name : String
  created_at : Nat
  updated_at : Nat
  subscription_plan_id : Option Nat
  deriving DecidableEq, Repr

/-- Row of `api_keys`. -/
structure ApiKeyRow where
  id : Nat
  user_id : Nat
  key_hash : String
  name : String
  is_active : Bool
  created_at : Nat
  last_used_at : Option Nat
  deriving DecidableEq, Repr

/-- Row of `voices`. -/
structure VoiceRow where
  id : Nat
  name : String
  identifier : String
  description : Option String
  created_at : Nat
  deriving DecidableEq, Repr

/-- Row of `call_sessions`. -/
structure CallSessionRow where
  id : Nat
  twilio_call_id : String
  user_id : Nat
  start_time : Nat
  end_time : Option Nat
  created_at : Nat
  deriving DecidableEq, Repr

/-- The `turn_role` enum: exactly the three values of the pgEnum. -/
inductive TurnRole where
  | user
  | assistant
  | tool
  deriving DecidableEq, Repr

/-- Row of `turns`. -/
structure TurnRow where
  id : Nat
  call_session_id : Nat
  role : TurnRole
  text : Option String
  latency_ms : Option Nat
  created_at : Nat
  deriving DecidableEq, Repr

/-- The relational store: one list per table plus the per-table serial
counters (postgres `serial` starts at 1 and never reuses a value). -/
structure DB where
  plans : List SubscriptionPlanRow
  users : List UserRow
  apiKeys : List ApiKeyRow
  voices : List VoiceRow
  callSessions : List CallSessionRow
  turns : List TurnRow
  nextPlanId : Nat
  nextUserId : Nat
  nextApiKeyId : Nat
  nextVoiceId : Nat
  nextCallSessionId : Nat
  nextTurnId : Nat
  deriving DecidableEq, Repr

/-- The empty store with all serial counters at 1. -/
def initDB : DB :=
  { plans := [], users := [], apiKeys := [], voices := [], callSessions := []
    turns := [], nextPlanId := 1, nextUserId := 1, nextApiKeyId := 1
    nextVoiceId := 1, nextCallSessionId := 1, nextTurnId := 1 }

/-- Input of `createApiKey` (`createApiKeyInputSchema`). -/
structure CreateApiKeyInput where
  user_id : Nat
  key_hash : String
  name : String
  deriving DecidableEq, Repr

/-- Handler `createApiKey` (src/server/src/handlers/create_api_key.ts).
Selects the user by id (error if absent); when the user's
`subscription_plan_id` is truthy (JS: non-null and non-zero) and that plan
exists with a non-null `max_api_keys`, counts the user's `is_active` keys and
throws when the count is at or above the limit; otherwise inserts the key with
`is_active := true` and `last_used_at` left at its null default. -/
def apiKeyInsert (db : DB) (input : CreateApiKeyInput) (now : Nat) :
    Except Err (DB × ApiKeyRow) :=
  let row : ApiKeyRow :=
    { id := db.nextApiKeyId, user_id := input.user_id
      key_hash := input.key_hash, name := input.name
      is_active := true, created_at := now, last_used_at := none }
  .ok ({ db with
         apiKeys := db.apiKeys ++ [row]
         nextApiKeyId := db.nextApiKeyId + 1 }, row)

/-- Count of the user's `is_active = true` keys, as computed by the handler
(select keys by `user_id`, filter on `is_active`, take the length). -/
def activeApiKeysCount (db : DB) (userId : Nat) : Nat :=
  ((db.apiKeys.filter (fun k => k.user_id == userId)).filter
    (fun k => k.is_active)).length

/-- Handler `createApiKey` (src/server/src/handlers/create_api_key.ts).
Selects the user by id (error if absent); when the user's
`subscription_plan_id` is truthy (JS: non-null and non-zero) and that plan
exists with a non-null `max_api_keys`, counts the user's `is_active` keys and
throws when the count is at or above the limit; otherwise inserts the key with
`is_active := true` and `last_used_at` left at its null default
(`apiKeyInsert`). -/
def createApiKey (db : DB) (input : CreateApiKeyInput) (now : Nat) :
    Except Err (DB × ApiKeyRow) :=
  match (db.users.filter (fun u => u.id == input.user_id)).head? with
  | none =>
      .error (.NotFound ("User with ID " ++ toString input.user_id ++ " not found"))
  | some userWithPlan =>
      match userWithPlan.subscription_plan_id with
      | none => apiKeyInsert db input now
      | some pid =>
          if pid == 0 then apiKeyInsert db input now
          else
            match (db.plans.filter (fun p => p.id == pid)).head? with
            | none => apiKeyInsert db input now
            | some plan =>
                match plan.max_api_keys with
                | none => apiKeyInsert db input now
                | some limit =>
                    if limit ≤ activeApiKeysCount db input.user_id then
                      .error (.QuotaExceeded
                        ("API key limit reached. Maximum allowed: " ++ toString limit))
                    else apiKeyInsert db input now

/-- Input of `createUser` (`createUserInputSchema`; `subscription_plan_id` is
nullable). -/
structure CreateUserInput where
  email : String
  name : String
  subscription_plan_id : Option Nat
  deriving DecidableEq, Repr

/-- Input of `updateUser` (`updateUserInputSchema`; `email` and `name` are
optional, `subscription_plan_id` is optional and nullable). -/
structure UpdateUserInput where
  id : Nat
  email : Option String
  name : Option String
  subscription_plan_id : Option (Option Nat)
  deriving DecidableEq, Repr

/-- Input of `createSubscriptionPlan` (`createSubscriptionPlanInputSchema`).
The zod schema admits any non-negative number for `price`; the claims under
study concern prices representable at scale 2, which this model captures
exactly as a count of cents. -/
structure CreateSubscriptionPlanInput where
  name : String
  description : Option String
  price : Nat
  max_api_keys : Option Nat
  max_monthly_calls : Option Nat
  deriving DecidableEq, Repr

/-- Input of `createVoice` (`createVoiceInputSchema`). -/
structure CreateVoiceInput where
  name : String
  identifier : String
  description : Option String
  deriving DecidableEq, Repr

/-- Input of `createCallSession` (`createCallSessionInputSchema`). -/
structure CreateCallSessionInput where
  twilio_call_id : String
  user_id : Nat
  start_time : Nat
  deriving DecidableEq, Repr

/-- Input of `endCallSession` (`endCallSessionInputSchema`). -/
structure EndCallSessionInput where
  id : Nat
  end_time : Nat
  deriving DecidableEq, Repr

/-- Input of `createTurn` (`createTurnInputSchema`). -/
structure CreateTurnInput where
  call_session_id : Nat
  role : TurnRole
  text : Option String
  latency_ms : Option Nat
  deriving DecidableEq, Repr

/-- Input of `updateApiKey` (`updateApiKeyInputSchema`). -/
structure UpdateApiKeyInput where
  id : Nat
  name : Option String
  is_active : Option Bool
  deriving DecidableEq, Repr

/-- Decimal digit rendered as its ASCII character. -/
def digitChar (d : Nat) : Char := Char.ofNat (48 + d)

/-- ASCII character read back as a decimal digit. -/
def digitVal? (ch : Char) : Option Nat :=
  if 48 ≤ ch.toNat ∧ ch.toNat ≤ 57 then some (ch.toNat - 48) else none

/-- Decimal rendering of a natural, most significant digit first; the fuel
argument bounds the recursion and any fuel of at least `n` is exact. -/
def natCharsAux : Nat → Nat → List Char
  | 0, _ => []
  | _ + 1, 0 => []
  | fuel + 1, n + 1 => natCharsAux fuel ((n + 1) / 10) ++ [digitChar ((n + 1) % 10)]

/-- Decimal text of a natural number (JS renders 0 as "0"). -/
def natChars (n : Nat) : List Char :=
  if n = 0 then ['0'] else natCharsAux n n

/-- Left-to-right decimal accumulation, the arithmetic content of parsing a
digit string; fails on any non-digit character. -/
def parseNatAux : List Char → Nat → Option Nat
  | [], acc => some acc
  | ch :: rest, acc =>
      match digitVal? ch with
      | some d => parseNatAux rest (acc * 10 + d)
      | none => none

/-- Splits decimal text at the first point character: integer part together
with the fractional part when a point is present. -/
def splitAtDot : List Char → List Char × Option (List Char)
  | [] => ([], none)
  | ch :: rest =>
      if ch = '.' then ([], some rest)
      else
        let p := splitAtDot rest
        (ch :: p.1, p.2)

/-- Value in cents of a fractional part of one or two digits, the shapes the
scale-2 pipeline produces. -/
def fracVal? : List Char → Option Nat
  | [d] => (digitVal? d).map (· * 10)
  | [d1, d2] =>
      match digitVal? d1, digitVal? d2 with
      | some v1, some v2 => some (v1 * 10 + v2)
      | _, _ => none
  | _ => none

/-- Exact value in cents of decimal text of scale at most 2; models the
behaviour of `parseFloat` on the price strings this system produces (for which
the float64 round-trip is exact). -/
def parseCents (s : String) : Option Nat :=
  match splitAtDot s.data with
  | (intPart, none) =>
      if intPart = [] then none
      else (parseNatAux intPart 0).map (· * 100)
  | (intPart, some fracPart) =>
      if intPart = [] then none
      else
        match parseNatAux intPart 0, fracVal? fracPart with
        | some ip, some fp => some (ip * 100 + fp)
        | _, _ => none

/-- Canonical output text of a `numeric(10,2)` column: always two digits after
the point, as postgres prints it. -/
def render2 (c : Nat) : String :=
  ⟨natChars (c / 100) ++ '.' :: [digitChar (c % 100 / 10), digitChar (c % 100 % 10)]⟩

/-- Text produced by JS `Number.prototype.toString` on a scale-2 value: the
shortest representation, dropping a trailing fractional zero and dropping the
point entirely on whole values. -/
def jsNumberToString (c : Nat) : String :=
  if c % 100 = 0 then ⟨natChars (c / 100)⟩
  else if c % 10 = 0 then ⟨natChars (c / 100) ++ '.' :: [digitChar (c % 100 / 10)]⟩
  else ⟨natChars (c / 100) ++ '.' :: [digitChar (c % 100 / 10), digitChar (c % 10)]⟩

/-- Storage normalization of the `numeric(10,2)` column: the inserted text is
parsed to its exact value and later read back in the canonical two-decimal
form.  Text that is not valid scale-2 decimal cannot reach the column and is
kept unchanged. -/
def pgNumericStore (s : String) : String :=
  match parseCents s with
  | some v => render2 v
  | none => s

/-- Insert step of `createUser`: the store enforces the unique constraint on
`users.email` (schema.ts: `.unique()`), so the insert is rejected with a
constraint violation when the email is already present; otherwise the row is
inserted with `created_at` and `updated_at` both set by the column defaults. -/
def userInsert (db : DB) (input : CreateUserInput) (now : Nat) :
    Except Err (DB × UserRow) :=
  if db.users.any (fun u => u.email == input.email) then
    .error (.Conflict "duplicate key value violates unique constraint users_email_unique")
  else
    let row : UserRow :=
      { id := db.nextUserId, email := input.email, name := input.name
        created_at := now, updated_at := now
        subscription_plan_id := input.subscription_plan_id }
    .ok ({ db with
           users := db.users ++ [row]
           nextUserId := db.nextUserId + 1 }, row)

/-- Implemented handler `createUser` (src/unnamed/part_014): when
`subscription_plan_id` is non-null it must reference an existing plan,
otherwise the user row is inserted. -/
def createUser (db : DB) (input : CreateUserInput) (now : Nat) :
    Except Err (DB × UserRow) :=
  match input.subscription_plan_id with
  | some pid =>
      if (db.plans.filter (fun p => p.id == pid)) = [] then
        .error (.NotFound
          ("Subscription plan with id " ++ toString pid ++ " does not exist"))
      else userInsert db input now
  | none => userInsert db input now

/-- Placeholder handler `createUser` (src/server/src/handlers/create_user.ts),
the module the tRPC router imports: it touches no table and resolves with a
row whose id is the literal 1 and whose timestamps are the call instant. -/
def createUserPlaceholder (db : DB) (input : CreateUserInput) (now : Nat) :
    Except Err (DB × UserRow) :=
  .ok (db,
    { id := 1, email := input.email, name := input.name
      created_at := now, updated_at := now
      subscription_plan_id := input.subscription_plan_id })

/-- Field update applied by `updateUser` to a matching row: provided fields
overwrite, omitted fields persist, and `updated_at` is always set to the call
instant (the source always puts `updated_at: new Date()` into the update). -/
def userApplyUpdate (input : UpdateUserInput) (now : Nat) (u : UserRow) : UserRow :=
  { u with
    email := input.email.getD u.email
    name := input.name.getD u.name
    subscription_plan_id :=
      match input.subscription_plan_id with
      | none => u.subscription_plan_id
      | some v => v
    updated_at := now }

/-- Update query of `updateUser`: rewrites every row matching the id with the
provided fields and returns the first updated row. -/
def userUpdateRun (db : DB) (input : UpdateUserInput) (now : Nat)
    (existingUser : UserRow) : Except Err (DB × UserRow) :=
  .ok ({ db with
         users := db.users.map (fun (u : UserRow) =>
           if u.id == input.id then userApplyUpdate input now u else u) },
       userApplyUpdate input now existingUser)

/-- Implemented handler `updateUser` (src/unnamed/part_009): existence check,
then a uniqueness check on a provided email (JS truthiness: an empty string
skips it) excluding the user's own row, then a partial update of the provided
fields with `updated_at` refreshed (`userUpdateRun`). -/
def updateUser (db : DB) (input : UpdateUserInput) (now : Nat) :
    Except Err (DB × UserRow) :=
  match (db.users.filter (fun u => u.id == input.id)).head? with
  | none =>
      .error (.NotFound ("User with ID " ++ toString input.id ++ " not found"))
  | some existingUser =>
      match input.email with
      | none => userUpdateRun db input now existingUser
      | some e =>
          if e == "" then userUpdateRun db input now existingUser
          else if (db.users.filter (fun (u : UserRow) => u.email == e && u.id != input.id)).isEmpty then
            userUpdateRun db input now existingUser
          else
            .error (.Conflict ("Email " ++ e ++ " is already in use"))

/-- The subscription-plan shape the handlers return to callers: the decimal
text of the price column parsed back into a numeric value (`parseFloat`),
modelled in cents. -/
structure SubscriptionPlanOut where
  id : Nat
  name : String
  description : Option String
  price : Nat
  max_api_keys : Option Nat
  max_monthly_calls : Option Nat
  created_at : Nat
  deriving DecidableEq, Repr

/-- Response shaping of a plan row: `parseFloat(plan.price)` on the stored
decimal text. -/
def planRowToOut (r : SubscriptionPlanRow) : SubscriptionPlanOut :=
  { id := r.id, name := r.name, description := r.description
    price := (parseCents r.price).getD 0
    max_api_keys := r.max_api_keys, max_monthly_calls := r.max_monthly_calls
    created_at := r.created_at }

/-- Implemented handler `createSubscriptionPlan` (src/unnamed/part_008):
pre-checks name uniqueness, stores the price as `input.price.toString()` in
the `numeric(10,2)` column, and returns the row with the price parsed back to
a number. -/
def createSubscriptionPlan (db : DB) (input : CreateSubscriptionPlanInput)
    (now : Nat) : Except Err (DB × SubscriptionPlanOut) :=
  if (db.plans.filter (fun p => p.name == input.name)) ≠ [] then
    .error (.Conflict
      ("Subscription plan with name " ++ input.name ++ " already exists"))
  else
    let row : SubscriptionPlanRow :=
      { id := db.nextPlanId, name := input.name, description := input.description
        price := pgNumericStore (jsNumberToString input.price)
        max_api_keys := input.max_api_keys
        max_monthly_calls := input.max_monthly_calls
        created_at := now }
    .ok ({ db with
           plans := db.plans ++ [row]
           nextPlanId := db.nextPlanId + 1 }, planRowToOut row)

/-- Handler `getSubscriptionPlans`
(src/server/src/handlers/get_subscription_plans.ts): selects every plan and
parses the price text back to a number. -/
def getSubscriptionPlans (db : DB) : List SubscriptionPlanOut :=
  db.plans.map planRowToOut

/-- Handler `createVoice` (src/unnamed/part_007): a bare insert; the store
rejects a duplicate `identifier` through the unique constraint
(schema.ts: `.unique()`). -/
def createVoice (db : DB) (input : CreateVoiceInput) (now : Nat) :
    Except Err (DB × VoiceRow) :=
  if db.voices.any (fun v => v.identifier == input.identifier) then
    .error (.Conflict "duplicate key value violates unique constraint voices_identifier_unique")
  else
    let row : VoiceRow :=
      { id := db.nextVoiceId, name := input.name, identifier := input.identifier
        description := input.description, created_at := now }
    .ok ({ db with
           voices := db.voices ++ [row]
           nextVoiceId := db.nextVoiceId + 1 }, row)

/-- Handler `createCallSession`
(src/server/src/handlers/create_call_session.ts): user-existence check, then
an insert in which the store rejects a duplicate `twilio_call_id` through the
unique constraint; `end_time` is null at creation. -/
def createCallSession (db : DB) (input : CreateCallSessionInput) (now : Nat) :
    Except Err (DB × CallSessionRow) :=
  if (db.users.filter (fun u => u.id == input.user_id)) = [] then
    .error (.NotFound
      ("User with id " ++ toString input.user_id ++ " does not exist"))
  else if db.callSessions.any (fun s => s.twilio_call_id == input.twilio_call_id) then
    .error (.Conflict "duplicate key value violates unique constraint call_sessions_twilio_call_id_unique")
  else
    let row : CallSessionRow :=
      { id := db.nextCallSessionId, twilio_call_id := input.twilio_call_id
        user_id := input.user_id, start_time := input.start_time
        end_time := none, created_at := now }
    .ok ({ db with
           callSessions := db.callSessions ++ [row]
           nextCallSessionId := db.nextCallSessionId + 1 }, row)

/-- Handler `endCallSession` (src/unnamed/part_010): existence check, then an
already-ended check on `end_time`, then an update setting only `end_time` on
the rows matching the id. -/
def endCallSession (db : DB) (input : EndCallSessionInput) :
    Except Err (DB × CallSessionRow) :=
  match (db.callSessions.filter (fun s => s.id == input.id)).head? with
  | none =>
      .error (.NotFound ("Call session with id " ++ toString input.id ++ " not found"))
  | some existingSession =>
      match existingSession.end_time with
      | some _ =>
          .error (.InvalidState
            ("Call session with id " ++ toString input.id ++ " is already ended"))
      | none =>
          .ok ({ db with
                 callSessions := db.callSessions.map (fun s =>
                   if s.id == input.id then { s with end_time := some input.end_time }
                   else s) },
               { existingSession with end_time := some input.end_time })

/-- Handler `createTurn` (src/unnamed/part_011): session-existence check, then
a liveness check on the session's `end_time`, then the insert of one turn. -/
def createTurn (db : DB) (input : CreateTurnInput) (now : Nat) :
    Except Err (DB × TurnRow) :=
  match (db.callSessions.filter (fun s => s.id == input.call_session_id)).head? with
  | none => .error (.NotFound "Call session not found")
  | some callSession =>
      match callSession.end_time with
      | some _ => .error (.InvalidState "Cannot add turn to ended call session")
      | none =>
          let row : TurnRow :=
            { id := db.nextTurnId, call_session_id := input.call_session_id
              role := input.role, text := input.text
              latency_ms := input.latency_ms, created_at := now }
          .ok ({ db with
                 turns := db.turns ++ [row]
                 nextTurnId := db.nextTurnId + 1 }, row)

/-- Handler `updateApiKey` (src/server/src/handlers/update_api_key.ts):
existence check, then a partial update of `name` and `is_active` only. -/
def updateApiKey (db : DB) (input : UpdateApiKeyInput) :
    Except Err (DB × ApiKeyRow) :=
  match (db.apiKeys.filter (fun k => k.id == input.id)).head? with
  | none =>
      .error (.NotFound ("API key with id " ++ toString input.id ++ " not found"))
  | some existing =>
      let upd := fun (k : ApiKeyRow) =>
        { k with name := input.name.getD k.name
                 is_active := input.is_active.getD k.is_active }
      .ok ({ db with
             apiKeys := db.apiKeys.map (fun k => if k.id == input.id then upd k else k) },
           upd existing)

/-- Turns belonging to one call session, in insertion order. -/
def turnsOfSession (db : DB) (sid : Nat) : List TurnRow :=
  db.turns.filter (fun t => t.call_session_id == sid)

/-- Handler `getTurnsByCallSession` (the select in
src/server/src/handlers/create_api_key.ts lines 63-87): existence check, then
a select of the turns of the session with `orderBy(asc(created_at))`.  The
query names no secondary sort key, so the store may return the matching rows
in any order that is non-decreasing in `created_at`; the handler's possible
results are therefore a relation. -/
def getTurnsByCallSessionRel (db : DB) (sid : Nat)
    (res : Except Err (List TurnRow)) : Prop :=
  match (db.callSessions.filter (fun s => s.id == sid)).head? with
  | none =>
      res = .error (.NotFound ("Call session with id " ++ toString sid ++ " not found"))
  | some _ =>
      ∃ out, res = .ok out ∧ out.Perm (turnsOfSession db sid) ∧
        out.Pairwise (fun a b => a.created_at ≤ b.created_at)

/-- One request against the system: the nine mutating operations of the tRPC
router.  The six list/read handlers issue only selects and leave the store
unchanged, so they need no transition. -/
inductive Op where
  | createUser (i : CreateUserInput)
  | updateUser (i : UpdateUserInput)
  | createSubscriptionPlan (i : CreateSubscriptionPlanInput)
  | createApiKey (i : CreateApiKeyInput)
  | updateApiKey (i : UpdateApiKeyInput)
  | createVoice (i : CreateVoiceInput)
  | createCallSession (i : CreateCallSessionInput)
  | endCallSession (i : EndCallSessionInput)
  | createTurn (i : CreateTurnInput)

/-- Post-state of a handler result: a failed operation leaves the store as it
was. -/
def afterResult (db : DB) : Except Err (DB × α) → DB
  | .ok (db', _) => db'
  | .error _ => db

/-- State transition of one operation at one instant. -/
def stepOp (db : DB) (op : Op) (now : Nat) : DB :=
  match op with
  | .createUser i => afterResult db (createUser db i now)
  | .updateUser i => afterResult db (updateUser db i now)
  | .createSubscriptionPlan i => afterResult db (createSubscriptionPlan db i now)
  | .createApiKey i => afterResult db (createApiKey db i now)
  | .updateApiKey i => afterResult db (updateApiKey db i)
  | .createVoice i => afterResult db (createVoice db i now)
  | .createCallSession i => afterResult db (createCallSession db i now)
  | .endCallSession i => afterResult db (endCallSession db i)
  | .createTurn i => afterResult db (createTurn db i now)

/-- States reachable from the empty store by any sequence of requests. -/
inductive Reachable : DB → Prop where
  | init : Reachable initDB
  | step (db : DB) (op : Op) (now : Nat) : Reachable db → Reachable (stepOp db op now)

/-- C1: for a user whose `subscription_plan_id` refers to an existing plan
with `max_api_keys = N` (non-null), `createApiKey` fails with
`QuotaExceededError` exactly when the user's count of `is_active = true` keys
is at least `N`; below `N` it succeeds and the new key has `is_active = true`
and `last_used_at = null`.  (The plan id is non-zero, as every store-assigned
serial id is.) -/
theorem createApiKey_quota_exact (db : DB) (input : CreateApiKeyInput) (now : Nat)
    (u : UserRow) (pid : Nat) (plan : SubscriptionPlanRow) (N : Nat)
    (hu : (db.users.filter (fun x => x.id == input.user_id)).head? = some u)
    (hpid : u.subscription_plan_id = some pid) (hpid0 : pid ≠ 0)
    (hplan : (db.plans.filter (fun p => p.id == pid)).head? = some plan)
    (hN : plan.max_api_keys = some N) :
    ((∃ msg, createApiKey db input now = .error (.QuotaExceeded msg)) ↔
        N ≤ activeApiKeysCount db input.user_id) ∧
    (activeApiKeysCount db input.user_id < N →
      createApiKey db input now =
        .ok ({ db with
               apiKeys := db.apiKeys ++
                 [{ id := db.nextApiKeyId, user_id := input.user_id
                    key_hash := input.key_hash, name := input.name
                    is_active := true, created_at := now, last_used_at := none }]
               nextApiKeyId := db.nextApiKeyId + 1 },
             { id := db.nextApiKeyId, user_id := input.user_id
               key_hash := input.key_hash, name := input.name
               is_active := true, created_at := now, last_used_at := none })) := by
  have hred : createApiKey db input now =
      (if N ≤ activeApiKeysCount db input.user_id then
        .error (.QuotaExceeded ("API key limit reached. Maximum allowed: " ++ toString N))
      else apiKeyInsert db input now) := by
    simp [createApiKey, hu, hpid, hplan, hN, hpid0]
  rw [hred]
  by_cases hle : N ≤ activeApiKeysCount db input.user_id
  · rw [if_pos hle]
    refine ⟨⟨fun _ => hle, fun _ => ⟨_, rfl⟩⟩, ?_⟩
    intro hlt; omega
  · rw [if_neg hle]
    refine ⟨⟨?_, fun h => absurd h hle⟩, ?_⟩
    · rintro ⟨msg, hmsg⟩
      simp [apiKeyInsert] at hmsg
    · intro _
      simp only [apiKeyInsert]

/-- Store, user and plan used to exercise `createApiKey_quota_exact`: one plan
with `max_api_keys = 1`, one user on it, one active key already present. -/
def quotaDB : DB :=
  { plans := [{ id := 1, name := "Basic", description := none, price := "9.99"
                max_api_keys := some 1, max_monthly_calls := none, created_at := 0 }]
    users := [{ id := 1, email := "a@b.c", name := "A", created_at := 0
                updated_at := 0, subscription_plan_id := some 1 }]
    apiKeys := [{ id := 1, user_id := 1, key_hash := "h1", name := "k1"
                  is_active := true, created_at := 0, last_used_at := none }]
    voices := [], callSessions := [], turns := []
    nextPlanId := 2, nextUserId := 2, nextApiKeyId := 2, nextVoiceId := 1
    nextCallSessionId := 1, nextTurnId := 1 }

/-- Witness for C1 at a concrete store: with the limit 1 already reached the
create fails with the quota error. -/
theorem createApiKey_quota_exact_witness :
    ∃ msg, createApiKey quotaDB ⟨1, "h2", "k2"⟩ 5 = .error (.QuotaExceeded msg) := by
  have h := createApiKey_quota_exact quotaDB ⟨1, "h2", "k2"⟩ 5
    { id := 1, email := "a@b.c", name := "A", created_at := 0
      updated_at := 0, subscription_plan_id := some 1 }
    1
    { id := 1, name := "Basic", description := none, price := "9.99"
      max_api_keys := some 1, max_monthly_calls := none, created_at := 0 }
    1 (by decide) (by decide) (by decide) (by decide) (by decide)
  exact h.1.mpr (by decide)

/-- When the user's `subscription_plan_id` does not resolve to an existing
plan, `createApiKey` skips the quota check entirely and inserts (the source
guards the whole check with `subscriptionPlan.length > 0`). -/
theorem createApiKey_eq_insert_of_missing_plan (db : DB) (input : CreateApiKeyInput)
    (now : Nat) (u : UserRow) (pid : Nat)
    (hu : (db.users.filter (fun x => x.id == input.user_id)).head? = some u)
    (hpid : u.subscription_plan_id = some pid)
    (hmiss : db.plans.filter (fun p => p.id == pid) = []) :
    createApiKey db input now = apiKeyInsert db input now := by
  unfold createApiKey
  rw [hu]
  by_cases h0 : pid = 0
  · simp [hpid, h0]
  · simp [hpid, h0, hmiss]

/-- Repeated key creation for one user: `none` as soon as one create fails,
otherwise the store after the given number of successful creates. -/
def iterCreateApiKey (input : CreateApiKeyInput) (now : Nat) : Nat → DB → Option DB
  | 0, db => some db
  | n + 1, db =>
      match createApiKey db input now with
      | .ok (db2, _) => iterCreateApiKey input now n db2
      | .error _ => none

/-- C4: a user whose `subscription_plan_id` refers to a plan id that is not in
the store is treated as unlimited: every create succeeds (any number of active
keys can be created) and no error, in particular no `QuotaExceededError`, is
ever raised. -/
theorem createApiKey_missing_plan_unlimited (db : DB) (input : CreateApiKeyInput)
    (now : Nat) (u : UserRow) (pid : Nat)
    (hu : (db.users.filter (fun x => x.id == input.user_id)).head? = some u)
    (hpid : u.subscription_plan_id = some pid)
    (hmiss : db.plans.filter (fun p => p.id == pid) = []) :
    (∀ e, createApiKey db input now ≠ .error e) ∧
    (∀ n, (iterCreateApiKey input now n db).isSome) := by
  constructor
  · intro e he
    rw [createApiKey_eq_insert_of_missing_plan db input now u pid hu hpid hmiss] at he
    simp [apiKeyInsert] at he
  · intro n
    induction n generalizing db with
    | zero => simp [iterCreateApiKey]
    | succ m ih =>
        rw [iterCreateApiKey,
          createApiKey_eq_insert_of_missing_plan db input now u pid hu hpid hmiss]
        simp only [apiKeyInsert]
        exact ih _ hu hmiss

/-- Store with one user pointing at plan id 7, which does not exist. -/
def danglingPlanDB : DB :=
  { plans := []
    users := [{ id := 1, email := "a@b.c", name := "A", created_at := 0
                updated_at := 0, subscription_plan_id := some 7 }]
    apiKeys := [], voices := [], callSessions := [], turns := []
    nextPlanId := 1, nextUserId := 2, nextApiKeyId := 1, nextVoiceId := 1
    nextCallSessionId := 1, nextTurnId := 1 }

/-- Witness for C4: with a dangling plan reference, three consecutive creates
all succeed. -/
theorem createApiKey_missing_plan_unlimited_witness :
    (iterCreateApiKey ⟨1, "h", "k"⟩ 0 3 danglingPlanDB).isSome := by
  exact (createApiKey_missing_plan_unlimited danglingPlanDB ⟨1, "h", "k"⟩ 0
    { id := 1, email := "a@b.c", name := "A", created_at := 0
      updated_at := 0, subscription_plan_id := some 7 }
    7 (by decide) (by decide) (by decide)).2 3

/-- C3: `createTurn` fails with `NotFoundError` when the call session does not
exist, fails with `InvalidStateError` when it exists with a non-null
`end_time`, and otherwise succeeds, appending exactly one turn for that
session to the store. -/
theorem createTurn_lifecycle (db : DB) (input : CreateTurnInput) (now : Nat) :
    match (db.callSessions.filter (fun s => s.id == input.call_session_id)).head? with
    | none => createTurn db input now = .error (.NotFound "Call session not found")
    | some s =>
        match s.end_time with
        | some _ =>
            createTurn db input now =
              .error (.InvalidState "Cannot add turn to ended call session")
        | none =>
            createTurn db input now =
              .ok ({ db with
                     turns := db.turns ++
                       [{ id := db.nextTurnId, call_session_id := input.call_session_id
                          role := input.role, text := input.text
                          latency_ms := input.latency_ms, created_at := now }]
                     nextTurnId := db.nextTurnId + 1 },
                   { id := db.nextTurnId, call_session_id := input.call_session_id
                     role := input.role, text := input.text
                     latency_ms := input.latency_ms, created_at := now }) := by
  unfold createTurn
  cases h : (db.callSessions.filter (fun s => s.id == input.call_session_id)).head? with
  | none => simp
  | some s => cases hend : s.end_time with
    | none => simp [hend]
    | some t => simp [hend]

/-- The head of a filtered list is a member of the original list and satisfies
the filter predicate. -/
theorem head?_filter_mem {α : Type} (p : α → Bool) (l : List α) (a : α)
    (h : (l.filter p).head? = some a) : a ∈ l ∧ p a = true := by
  have hm : a ∈ l.filter p := by
    cases hf : l.filter p with
    | nil => rw [hf] at h; cases h
    | cons b bs =>
        rw [hf] at h
        injection h with h1
        subst h1
        exact List.mem_cons_self b bs
  exact List.mem_filter.mp hm

/-- C5: updating a user with the email of a different existing user fails with
`ConflictError` and leaves the store untouched, while updating a user with its
own current email raises no conflict and succeeds.  The hypotheses describe
the store of the claim: the user exists, another user owns the target email,
and (as the unique constraint guarantees) nobody else holds the user's own
email; emails at the input boundary are non-empty. -/
theorem updateUser_duplicate_email_conflict (db : DB) (uid : Nat) (U V : UserRow)
    (e : String) (nm : Option String) (pl : Option (Option Nat)) (now : Nat)
    (hU : (db.users.filter (fun x => x.id == uid)).head? = some U)
    (he : e ≠ "")
    (hV : V ∈ db.users) (hVe : V.email = e) (hVid : V.id ≠ uid)
    (hown : ∀ W ∈ db.users, W.email = U.email → W.id = uid)
    (hUe : U.email ≠ "") :
    updateUser db ⟨uid, some e, nm, pl⟩ now =
      .error (.Conflict ("Email " ++ e ++ " is already in use")) ∧
    stepOp db (.updateUser ⟨uid, some e, nm, pl⟩) now = db ∧
    (∀ nm2 pl2, ∃ db2 u2,
      updateUser db ⟨uid, some U.email, nm2, pl2⟩ now = .ok (db2, u2)) := by
  have hfilterV : db.users.filter (fun (u : UserRow) => u.email == e && u.id != uid) ≠ [] := by
    intro hnil
    have : V ∈ db.users.filter (fun (u : UserRow) => u.email == e && u.id != uid) := by
      refine List.mem_filter.mpr ⟨hV, ?_⟩
      simp [hVe, hVid]
    rw [hnil] at this
    cases this
  have hpart1 : updateUser db ⟨uid, some e, nm, pl⟩ now =
      .error (.Conflict ("Email " ++ e ++ " is already in use")) := by
    unfold updateUser
    rw [show (⟨uid, some e, nm, pl⟩ : UpdateUserInput).id = uid from rfl, hU]
    simp [he, List.isEmpty_iff, hfilterV]
  refine ⟨hpart1, ?_, ?_⟩
  · simp [stepOp, hpart1, afterResult]
  · intro nm2 pl2
    have hempty : db.users.filter (fun (u : UserRow) => u.email == U.email && u.id != uid) = [] := by
      rw [List.filter_eq_nil_iff]
      intro W hW
      by_cases hWe : W.email = U.email
      · have := hown W hW hWe
        simp [hWe, this]
      · simp [hWe]
    unfold updateUser
    rw [show (⟨uid, some U.email, nm2, pl2⟩ : UpdateUserInput).id = uid from rfl, hU]
    simp [hUe, hempty, List.isEmpty_iff]
    exact ⟨_, _, rfl⟩

/-- Store with two users holding distinct emails. -/
def twoUsersDB : DB :=
  { plans := []
    users := [{ id := 1, email := "a@b.c", name := "A", created_at := 0
                updated_at := 0, subscription_plan_id := none },
              { id := 2, email := "b@b.c", name := "B", created_at := 0
                updated_at := 0, subscription_plan_id := none }]
    apiKeys := [], voices := [], callSessions := [], turns := []
    nextPlanId := 1, nextUserId := 3, nextApiKeyId := 1, nextVoiceId := 1
    nextCallSessionId := 1, nextTurnId := 1 }

/-- Witness for C5: taking the other user's email fails with the conflict
error. -/
theorem updateUser_duplicate_email_conflict_witness :
    updateUser twoUsersDB ⟨1, some "b@b.c", none, none⟩ 5 =
      .error (.Conflict ("Email " ++ "b@b.c" ++ " is already in use")) :=
  (updateUser_duplicate_email_conflict twoUsersDB 1
    { id := 1, email := "a@b.c", name := "A", created_at := 0
      updated_at := 0, subscription_plan_id := none }
    { id := 2, email := "b@b.c", name := "B", created_at := 0
      updated_at := 0, subscription_plan_id := none }
    "b@b.c" none none 5
    (by decide) (by decide) (by decide) (by decide) (by decide)
    (by decide) (by decide)).1

/-- C7: a successful `updateUser` changes exactly the provided fields (a
provided null clears `subscription_plan_id`), keeps every omitted field and
`id`/`created_at`, refreshes `updated_at` to the call instant unconditionally,
and rewrites no other row of the table. -/
theorem updateUser_frame (db : DB) (input : UpdateUserInput) (now : Nat) (U : UserRow)
    (hU : (db.users.filter (fun x => x.id == input.id)).head? = some U)
    (hnc : ∀ e, input.email = some e → e ≠ "" →
      db.users.filter (fun (u : UserRow) => u.email == e && u.id != input.id) = []) :
    ∃ db2 u2, updateUser db input now = .ok (db2, u2) ∧
      u2.email = input.email.getD U.email ∧
      u2.name = input.name.getD U.name ∧
      u2.subscription_plan_id =
        (match input.subscription_plan_id with
         | none => U.subscription_plan_id
         | some v => v) ∧
      u2.id = U.id ∧
      u2.created_at = U.created_at ∧
      u2.updated_at = now ∧
      db2.users = db.users.map (fun u =>
        if u.id == input.id then userApplyUpdate input now u else u) ∧
      db2.plans = db.plans ∧ db2.apiKeys = db.apiKeys ∧ db2.voices = db.voices ∧
      db2.callSessions = db.callSessions ∧ db2.turns = db.turns ∧
      (∀ w ∈ db.users, w.id ≠ input.id → w ∈ db2.users) := by
  refine ⟨{ db with users := db.users.map (fun (u : UserRow) =>
      if u.id == input.id then userApplyUpdate input now u else u) },
    userApplyUpdate input now U, ?_, ?_, ?_, ?_, ?_, ?_, ?_, rfl, rfl, rfl, rfl, rfl, rfl, ?_⟩
  · have hred : updateUser db input now = userUpdateRun db input now U := by
      unfold updateUser
      rw [hU]
      cases hem : input.email with
      | none => rfl
      | some e =>
          by_cases h0 : e = ""
          · simp [h0]
          · simp [h0, hnc e hem h0, List.isEmpty_iff]
    rw [hred]
    exact rfl
  · simp [userApplyUpdate]
  · simp [userApplyUpdate]
  · simp [userApplyUpdate]
  · simp [userApplyUpdate]
  · simp [userApplyUpdate]
  · simp [userApplyUpdate]
  · intro w hw hwid
    refine List.mem_map.mpr ⟨w, hw, ?_⟩
    simp [hwid]

/-- Witness for C7: updating only the name keeps the email, refreshes
`updated_at`, and succeeds. -/
theorem updateUser_frame_witness :
    ∃ db2 u2, updateUser twoUsersDB ⟨1, none, some "NewName", none⟩ 9 = .ok (db2, u2) ∧
      u2.email = "a@b.c" ∧ u2.name = "NewName" ∧ u2.updated_at = 9 := by
  obtain ⟨db2, u2, h1, h2, h3, -, -, -, h7, -⟩ :=
    updateUser_frame twoUsersDB ⟨1, none, some "NewName", none⟩ 9
      { id := 1, email := "a@b.c", name := "A", created_at := 0
        updated_at := 0, subscription_plan_id := none }
      (by decide) (fun e he => Option.noConfusion he)
  exact ⟨db2, u2, h1, by simpa using h2, by simpa using h3, h7⟩

/-- C10: `updateUser` performs no plan-existence check: setting
`subscription_plan_id` to any integer succeeds, even one that names no stored
plan, leaving a dangling reference that `createApiKey` then treats as an
unlimited quota (it never fails for that user). -/
theorem updateUser_dangling_plan (db : DB) (uid p : Nat) (now : Nat) (U : UserRow)
    (hU : (db.users.filter (fun x => x.id == uid)).head? = some U) :
    ∃ db2 u2, updateUser db ⟨uid, none, none, some (some p)⟩ now = .ok (db2, u2) ∧
      u2.subscription_plan_id = some p ∧
      u2 ∈ db2.users ∧ db2.plans = db.plans ∧
      (db.plans.filter (fun pl => pl.id == p) = [] →
        ∀ kh nm now2 e, createApiKey db2 ⟨uid, kh, nm⟩ now2 ≠ .error e) := by
  have hUm := head?_filter_mem _ _ _ hU
  have hUid : (U.id == uid) = true := hUm.2
  refine ⟨{ db with users := db.users.map (fun (u : UserRow) =>
      if u.id == uid then userApplyUpdate ⟨uid, none, none, some (some p)⟩ now u else u) },
    userApplyUpdate ⟨uid, none, none, some (some p)⟩ now U, ?_, rfl, ?_, rfl, ?_⟩
  · unfold updateUser
    rw [show (⟨uid, none, none, some (some p)⟩ : UpdateUserInput).id = uid from rfl, hU]
    exact rfl
  · refine List.mem_map.mpr ⟨U, hUm.1, ?_⟩
    rw [hUid]
    simp
  · intro hmiss kh nm now2 e he
    have hid : ∀ u : UserRow,
        ((if u.id == uid then userApplyUpdate ⟨uid, none, none, some (some p)⟩ now u else u).id == uid) =
          (u.id == uid) := by
      intro u
      by_cases h : (u.id == uid) = true
      · rw [if_pos h, h]
        simpa [userApplyUpdate] using h
      · rw [if_neg h]
    have hcomp : ((fun (x : UserRow) => x.id == uid) ∘ (fun (u : UserRow) =>
        if u.id == uid then userApplyUpdate ⟨uid, none, none, some (some p)⟩ now u else u)) =
        fun (u : UserRow) => u.id == uid := by
      funext u
      simp only [Function.comp]
      exact hid u
    have hfind :
        ((db.users.map (fun (u : UserRow) =>
            if u.id == uid then userApplyUpdate ⟨uid, none, none, some (some p)⟩ now u else u)).filter
          (fun x => x.id == uid)).head? =
          some (userApplyUpdate ⟨uid, none, none, some (some p)⟩ now U) := by
      rw [List.filter_map, hcomp, List.head?_map, hU]
      simp [hUid]
      intro h
      exact absurd (by simpa using hUid) h
    have hstep := createApiKey_eq_insert_of_missing_plan
      { db with users := db.users.map (fun (u : UserRow) =>
          if u.id == uid then userApplyUpdate ⟨uid, none, none, some (some p)⟩ now u else u) }
      ⟨uid, kh, nm⟩ now2
      (userApplyUpdate ⟨uid, none, none, some (some p)⟩ now U) p hfind rfl hmiss
    rw [hstep] at he
    simp [apiKeyInsert] at he

/-- Witness for C10: pointing a user at the nonexistent plan 42 succeeds. -/
theorem updateUser_dangling_plan_witness :
    ∃ db2 u2, updateUser twoUsersDB ⟨1, none, none, some (some 42)⟩ 5 = .ok (db2, u2) ∧
      u2.subscription_plan_id = some 42 := by
  obtain ⟨db2, u2, h1, h2, -⟩ := updateUser_dangling_plan twoUsersDB 1 42 5
    { id := 1, email := "a@b.c", name := "A", created_at := 0
      updated_at := 0, subscription_plan_id := none }
    (by decide)
  exact ⟨db2, u2, h1, h2⟩

/-- C9 counterexample: the placeholder `createUser` and the implemented
`createUser` disagree already on the empty store with a referenced plan id 1:
the implementation fails with `NotFoundError`, the placeholder resolves. -/
theorem createUser_placeholder_counterexample :
    createUser initDB ⟨"a@b.c", "A", some 1⟩ 0 ≠
      createUserPlaceholder initDB ⟨"a@b.c", "A", some 1⟩ 0 := by
  decide

/-- C9 amended: the two `createUser` modules are not observationally
equivalent.  Whenever the input references a plan id that is not in the store,
the implemented handler rejects with `NotFoundError` while the placeholder
succeeds, returns the constant id 1 with the input fields, and leaves the
store untouched. -/
theorem createUser_placeholder_not_equivalent (db : DB) (input : CreateUserInput)
    (now : Nat) (pid : Nat)
    (hpid : input.subscription_plan_id = some pid)
    (hmiss : db.plans.filter (fun p => p.id == pid) = []) :
    createUser db input now =
      .error (.NotFound ("Subscription plan with id " ++ toString pid ++ " does not exist")) ∧
    createUserPlaceholder db input now =
      .ok (db, { id := 1, email := input.email, name := input.name
                 created_at := now, updated_at := now
                 subscription_plan_id := input.subscription_plan_id }) ∧
    createUser db input now ≠ createUserPlaceholder db input now := by
  have h1 : createUser db input now =
      .error (.NotFound ("Subscription plan with id " ++ toString pid ++ " does not exist")) := by
    unfold createUser
    rw [hpid]
    simp [hmiss]
  refine ⟨h1, rfl, ?_⟩
  rw [h1]
  intro h
  cases h

/-- Witness for the amended C9 at the empty store. -/
theorem createUser_placeholder_not_equivalent_witness :
    createUser initDB ⟨"a@b.c", "A", some 1⟩ 0 =
      .error (.NotFound ("Subscription plan with id " ++ toString 1 ++ " does not exist")) ∧
    createUserPlaceholder initDB ⟨"a@b.c", "A", some 1⟩ 0 =
      .ok (initDB, { id := 1, email := "a@b.c", name := "A"
                     created_at := 0, updated_at := 0
                     subscription_plan_id := some 1 }) :=
  ⟨(createUser_placeholder_not_equivalent initDB ⟨"a@b.c", "A", some 1⟩ 0 1
      rfl (by decide)).1,
   (createUser_placeholder_not_equivalent initDB ⟨"a@b.c", "A", some 1⟩ 0 1
      rfl (by decide)).2.1⟩

theorem afterResult_ok {α : Type} (db db2 : DB) (r : α) :
    afterResult db (.ok (db2, r)) = db2 := rfl

theorem afterResult_error {α : Type} (db : DB) (e : Err) :
    afterResult db (.error e : Except Err (DB × α)) = db := rfl

/-- A successful handler result determines the post-state; a failed one keeps
the pre-state. -/
theorem afterResult_sessions {α : Type} (db : DB) (r : Except Err (DB × α))
    (h : ∀ db2 x, r = .ok (db2, x) → db2.callSessions = db.callSessions ∧
      db2.nextCallSessionId = db.nextCallSessionId) :
    (afterResult db r).callSessions = db.callSessions ∧
    (afterResult db r).nextCallSessionId = db.nextCallSessionId := by
  cases r with
  | error e => exact ⟨rfl, rfl⟩
  | ok p =>
      cases p with
      | mk db2 x => exact h db2 x rfl

/-- Effect of one step on the call-session table: every operation either
leaves table and counter alone, appends one fresh open session, or (only
`endCallSession`, and only after its not-already-ended check passed) rewrites
`end_time` on the rows matching the checked id. -/
theorem stepOp_sessions_shape (db : DB) (op : Op) (now : Nat) :
    ((stepOp db op now).callSessions = db.callSessions ∧
      (stepOp db op now).nextCallSessionId = db.nextCallSessionId) ∨
    (∃ row : CallSessionRow, row.id = db.nextCallSessionId ∧ row.end_time = none ∧
      (stepOp db op now).callSessions = db.callSessions ++ [row] ∧
      (stepOp db op now).nextCallSessionId = db.nextCallSessionId + 1) ∨
    (∃ sid t s0, ((db.callSessions.filter (fun s => s.id == sid)).head? = some s0) ∧
      s0.end_time = none ∧
      (stepOp db op now).callSessions = db.callSessions.map (fun s =>
        if s.id == sid then { s with end_time := some t } else s) ∧
      (stepOp db op now).nextCallSessionId = db.nextCallSessionId) := by
  cases op with
  | createUser i =>
      left
      simp only [stepOp]
      apply afterResult_sessions
      intro db2 x h
      unfold createUser userInsert at h
      repeat' split at h
      all_goals first
        | exact Except.noConfusion h
        | (injection h with h1; injection h1 with h2 h3; rw [← h2]; exact ⟨rfl, rfl⟩)
  | updateUser i =>
      left
      simp only [stepOp]
      apply afterResult_sessions
      intro db2 x h
      unfold updateUser userUpdateRun at h
      repeat' split at h
      all_goals first
        | exact Except.noConfusion h
        | (injection h with h1; injection h1 with h2 h3; rw [← h2]; exact ⟨rfl, rfl⟩)
  | createSubscriptionPlan i =>
      left
      simp only [stepOp]
      apply afterResult_sessions
      intro db2 x h
      unfold createSubscriptionPlan at h
      repeat' split at h
      all_goals first
        | exact Except.noConfusion h
        | (injection h with h1; injection h1 with h2 h3; rw [← h2]; exact ⟨rfl, rfl⟩)
  | createApiKey i =>
      left
      simp only [stepOp]
      apply afterResult_sessions
      intro db2 x h
      unfold createApiKey apiKeyInsert at h
      repeat' split at h
      all_goals first
        | exact Except.noConfusion h
        | (injection h with h1; injection h1 with h2 h3; rw [← h2]; exact ⟨rfl, rfl⟩)
  | updateApiKey i =>
      left
      simp only [stepOp]
      apply afterResult_sessions
      intro db2 x h
      unfold updateApiKey at h
      repeat' split at h
      all_goals first
        | exact Except.noConfusion h
        | (injection h with h1; injection h1 with h2 h3; rw [← h2]; exact ⟨rfl, rfl⟩)
  | createVoice i =>
      left
      simp only [stepOp]
      apply afterResult_sessions
      intro db2 x h
      unfold createVoice at h
      repeat' split at h
      all_goals first
        | exact Except.noConfusion h
        | (injection h with h1; injection h1 with h2 h3; rw [← h2]; exact ⟨rfl, rfl⟩)
  | createTurn i =>
      left
      simp only [stepOp]
      apply afterResult_sessions
      intro db2 x h
      unfold createTurn at h
      repeat' split at h
      all_goals first
        | exact Except.noConfusion h
        | (injection h with h1; injection h1 with h2 h3; rw [← h2]; exact ⟨rfl, rfl⟩)
  | createCallSession i =>
      simp only [stepOp]
      unfold createCallSession
      split
      · left; exact ⟨rfl, rfl⟩
      · split
        · left; exact ⟨rfl, rfl⟩
        · right; left
          exact ⟨{ id := db.nextCallSessionId, twilio_call_id := i.twilio_call_id
                   user_id := i.user_id, start_time := i.start_time
                   end_time := none, created_at := now },
                 rfl, rfl, rfl, rfl⟩
  | endCallSession i =>
      simp only [stepOp]
      cases hh : (db.callSessions.filter (fun s => s.id == i.id)).head? with
      | none =>
          left
          have hred : endCallSession db i =
              .error (.NotFound ("Call session with id " ++ toString i.id ++ " not found")) := by
            simp [endCallSession, hh]
          rw [hred]
          exact ⟨rfl, rfl⟩
      | some s0 =>
          cases he : s0.end_time with
          | some t =>
              left
              have hred : endCallSession db i =
                  .error (.InvalidState
                    ("Call session with id " ++ toString i.id ++ " is already ended")) := by
                simp [endCallSession, hh, he]
              rw [hred]
              exact ⟨rfl, rfl⟩
          | none =>
              right; right
              have hred : endCallSession db i =
                  .ok ({ db with callSessions := db.callSessions.map (fun s =>
                          if s.id == i.id then { s with end_time := some i.end_time } else s) },
                       { s0 with end_time := some i.end_time }) := by
                simp [endCallSession, hh, he]
              refine ⟨i.id, i.end_time, s0, hh, he, ?_, ?_⟩
              · rw [hred]
                exact rfl
              · rw [hred]
                exact rfl

/-- Store invariant on the call-session table: ids stay below the serial
counter and are pairwise distinct (the primary key). -/
def SessionsWF (db : DB) : Prop :=
  (∀ s ∈ db.callSessions, s.id < db.nextCallSessionId) ∧
  (db.callSessions.map (fun s => s.id)).Nodup

theorem stepOp_preserves_SessionsWF (db : DB) (op : Op) (now : Nat)
    (h : SessionsWF db) : SessionsWF (stepOp db op now) := by
  obtain ⟨hbound, hnodup⟩ := h
  rcases stepOp_sessions_shape db op now with ⟨h1, h2⟩ |
    ⟨row, hrid, -, h1, h2⟩ | ⟨sid, t, s0, -, -, h1, h2⟩
  · exact ⟨by rw [h1, h2]; exact hbound, by rw [h1]; exact hnodup⟩
  · constructor
    · rw [h1, h2]
      intro s hs
      rcases List.mem_append.mp hs with h | h
      · exact Nat.lt_trans (hbound s h) (Nat.lt_succ_self _)
      · rcases List.mem_singleton.mp h with rfl
        rw [hrid]
        exact Nat.lt_succ_self _
    · rw [h1, List.map_append]
      refine List.Nodup.append hnodup (List.nodup_singleton _) ?_
      intro a ha hb
      rcases List.mem_map.mp ha with ⟨s, hs, rfl⟩
      rw [List.map_singleton, List.mem_singleton] at hb
      have hba : s.id = row.id := by simpa using hb
      have hlt := hbound s hs
      omega
  · have hidpres : (fun (s : CallSessionRow) =>
        (if s.id == sid then { s with end_time := some t } else s).id) =
        fun (s : CallSessionRow) => s.id := by
      funext s
      by_cases h : (s.id == sid) = true
      · rw [if_pos h]
      · rw [if_neg h]
    constructor
    · rw [h1, h2]
      intro s hs
      rcases List.mem_map.mp hs with ⟨u, hu, rfl⟩
      by_cases h : (u.id == sid) = true
      · rw [if_pos h]
        exact hbound u hu
      · rw [if_neg h]
        exact hbound u hu
    · rw [h1, List.map_map]
      have : ((fun (s : CallSessionRow) => s.id) ∘ (fun s =>
          if s.id == sid then { s with end_time := some t } else s)) =
          fun (s : CallSessionRow) => s.id := by
        funext s
        simp only [Function.comp]
        by_cases h : (s.id == sid) = true
        · rw [if_pos h]
        · rw [if_neg h]
      rw [this]
      exact hnodup

theorem reachable_SessionsWF (db : DB) (h : Reachable db) : SessionsWF db := by
  induction h with
  | init =>
      constructor
      · intro s hs
        simp [initDB] at hs
      · simp [initDB]
  | step db op now _ ih => exact stepOp_preserves_SessionsWF db op now ih

/-- C2: in every reachable store, ending an already-ended call session fails
with `InvalidStateError` whatever end time is supplied, and no operation of
the system ever changes a non-null `end_time`: a step of any request preserves
the ended session's recorded end time. -/
theorem endCallSession_end_time_immutable (db : DB) (s : CallSessionRow) (t : Nat)
    (hreach : Reachable db) (hs : s ∈ db.callSessions) (ht : s.end_time = some t) :
    (∀ t2, endCallSession db ⟨s.id, t2⟩ =
      .error (.InvalidState
        ("Call session with id " ++ toString s.id ++ " is already ended"))) ∧
    (∀ op now, ∃ s2, s2 ∈ (stepOp db op now).callSessions ∧
      s2.id = s.id ∧ s2.end_time = some t) := by
  obtain ⟨hbound, hnodup⟩ := reachable_SessionsWF db hreach
  have huniq : ∀ a ∈ db.callSessions, ∀ b ∈ db.callSessions, a.id = b.id → a = b :=
    fun a ha b hb hab => List.inj_on_of_nodup_map hnodup ha hb hab
  have hhead : (db.callSessions.filter (fun x => x.id == s.id)).head? = some s := by
    cases hf : db.callSessions.filter (fun x => x.id == s.id) with
    | nil =>
        exfalso
        have hmem : s ∈ db.callSessions.filter (fun x => x.id == s.id) :=
          List.mem_filter.mpr ⟨hs, by simp⟩
        rw [hf] at hmem
        cases hmem
    | cons a l =>
        have ha : a ∈ db.callSessions.filter (fun x => x.id == s.id) := by
          rw [hf]
          exact List.mem_cons_self a l
        obtain ⟨ham, haid⟩ := List.mem_filter.mp ha
        have hasa : a = s := huniq a ham s hs (by simpa using haid)
        rw [hasa]
        rfl
  constructor
  · intro t2
    simp [endCallSession, hhead, ht]
  · intro op now
    rcases stepOp_sessions_shape db op now with ⟨h1, -⟩ |
      ⟨row, -, -, h1, -⟩ | ⟨sid, t3, s0, hh0, he0, h1, -⟩
    · exact ⟨s, by rw [h1]; exact hs, rfl, ht⟩
    · exact ⟨s, by rw [h1]; exact List.mem_append_left _ hs, rfl, ht⟩
    · have hs0 := head?_filter_mem _ _ _ hh0
      have hneq : s.id ≠ sid := by
        intro heq
        have hss0 : s = s0 := by
          refine huniq s hs s0 hs0.1 ?_
          have : s0.id = sid := by simpa using hs0.2
          omega
        rw [hss0, he0] at ht
        cases ht
      refine ⟨s, ?_, rfl, ht⟩
      rw [h1]
      refine List.mem_map.mpr ⟨s, hs, ?_⟩
      rw [if_neg (by simp [hneq])]

/-- Witness for C2 at a concrete reachable store: create a user, open a call
session, end it at instant 7; re-ending then fails and a further request (a
turn creation attempt) leaves the recorded end time 7 in place. -/
theorem endCallSession_end_time_immutable_witness :
    endCallSession
        (stepOp (stepOp (stepOp initDB (.createUser ⟨"a@b.c", "A", none⟩) 0)
          (.createCallSession ⟨"CA1", 1, 0⟩) 1) (.endCallSession ⟨1, 7⟩) 2)
        ⟨1, 99⟩ =
      .error (.InvalidState ("Call session with id " ++ toString 1 ++ " is already ended")) ∧
    ∃ s2, s2 ∈ (stepOp
        (stepOp (stepOp (stepOp initDB (.createUser ⟨"a@b.c", "A", none⟩) 0)
          (.createCallSession ⟨"CA1", 1, 0⟩) 1) (.endCallSession ⟨1, 7⟩) 2)
        (.createTurn ⟨1, .user, none, none⟩) 3).callSessions ∧
      s2.id = 1 ∧ s2.end_time = some 7 := by
  have h := endCallSession_end_time_immutable
    (stepOp (stepOp (stepOp initDB (.createUser ⟨"a@b.c", "A", none⟩) 0)
      (.createCallSession ⟨"CA1", 1, 0⟩) 1) (.endCallSession ⟨1, 7⟩) 2)
    { id := 1, twilio_call_id := "CA1", user_id := 1, start_time := 0
      end_time := some 7, created_at := 1 }
    7
    (Reachable.step _ _ _ (Reachable.step _ _ _ (Reachable.step _ _ _ Reachable.init)))
    (by decide) rfl
  exact ⟨h.1 99, h.2 (.createTurn ⟨1, .user, none, none⟩) 3⟩

theorem digitVal?_digitChar (d : Nat) (h : d < 10) :
    digitVal? (digitChar d) = some d := by
  interval_cases d <;> decide

theorem digitChar_ne_dot (d : Nat) (h : d < 10) : digitChar d ≠ '.' := by
  interval_cases d <;> decide

theorem parseNatAux_append (xs ys : List Char) :
    ∀ acc, parseNatAux (xs ++ ys) acc =
      (parseNatAux xs acc).bind (fun a => parseNatAux ys a) := by
  induction xs with
  | nil => intro acc; rfl
  | cons ch rest ih =>
      intro acc
      simp only [List.cons_append, parseNatAux]
      cases digitVal? ch with
      | none => rfl
      | some d => exact ih (acc * 10 + d)

theorem natCharsAux_digits (fuel : Nat) :
    ∀ n ch, ch ∈ natCharsAux fuel n → ∃ d, d < 10 ∧ ch = digitChar d := by
  induction fuel with
  | zero => intro n ch h; cases h
  | succ f ih =>
      intro n ch h
      cases n with
      | zero => cases h
      | succ m =>
          rw [natCharsAux] at h
          rcases List.mem_append.mp h with h1 | h2
          · exact ih _ ch h1
          · rcases List.mem_singleton.mp h2 with rfl
            exact ⟨(m + 1) % 10, Nat.mod_lt _ (by omega), rfl⟩

theorem natChars_digits (n : Nat) :
    ∀ ch ∈ natChars n, ∃ d, d < 10 ∧ ch = digitChar d := by
  intro ch h
  unfold natChars at h
  by_cases h0 : n = 0
  · rw [if_pos h0] at h
    rcases List.mem_singleton.mp h with rfl
    exact ⟨0, by omega, rfl⟩
  · rw [if_neg h0] at h
    exact natCharsAux_digits n n ch h

theorem natChars_no_dot (n : Nat) : ∀ ch ∈ natChars n, ch ≠ '.' := by
  intro ch h
  rcases natChars_digits n ch h with ⟨d, hd, rfl⟩
  exact digitChar_ne_dot d hd

theorem parseNatAux_natCharsAux (fuel : Nat) :
    ∀ n acc, n ≤ fuel →
      parseNatAux (natCharsAux fuel n) acc =
        some (acc * 10 ^ (natCharsAux fuel n).length + n) := by
  induction fuel with
  | zero =>
      intro n acc h
      have : n = 0 := Nat.le_zero.mp h
      subst this
      simp [natCharsAux, parseNatAux]
  | succ f ih =>
      intro n acc h
      cases n with
      | zero => simp [natCharsAux, parseNatAux]
      | succ m =>
          rw [natCharsAux, parseNatAux_append]
          have hle : (m + 1) / 10 ≤ f := by
            have := Nat.div_lt_self (Nat.succ_pos m) (by omega : 1 < 10)
            omega
          rw [ih ((m + 1) / 10) acc hle]
          simp only [Option.bind_some, parseNatAux,
            digitVal?_digitChar ((m + 1) % 10) (Nat.mod_lt _ (by omega))]
          rw [List.length_append, List.length_singleton]
          simp only [Option.some_bind]
          congr 1
          calc (acc * 10 ^ (natCharsAux f ((m + 1) / 10)).length + (m + 1) / 10) * 10 +
                (m + 1) % 10
              = acc * (10 ^ (natCharsAux f ((m + 1) / 10)).length * 10) +
                  ((m + 1) / 10 * 10 + (m + 1) % 10) := by ring
            _ = acc * 10 ^ ((natCharsAux f ((m + 1) / 10)).length + 1) + (m + 1) := by
                rw [Nat.div_add_mod', pow_succ]

theorem parseNatAux_natChars (n : Nat) : parseNatAux (natChars n) 0 = some n := by
  by_cases h0 : n = 0
  · subst h0; decide
  · unfold natChars
    rw [if_neg h0, parseNatAux_natCharsAux n n 0 (Nat.le_refl n)]
    simp

theorem natChars_ne_nil (n : Nat) : natChars n ≠ [] := by
  unfold natChars
  by_cases h0 : n = 0
  · rw [if_pos h0]; simp
  · rw [if_neg h0]
    cases n with
    | zero => exact absurd rfl h0
    | succ m =>
        rw [natCharsAux]
        simp

theorem splitAtDot_no_dot (L : List Char) (h : ∀ ch ∈ L, ch ≠ '.') :
    splitAtDot L = (L, none) := by
  induction L with
  | nil => rfl
  | cons ch rest ih =>
      rw [splitAtDot, if_neg (h ch (List.mem_cons_self ch rest))]
      rw [ih (fun c hc => h c (List.mem_cons_of_mem ch hc))]

theorem splitAtDot_append_dot (L R : List Char) (h : ∀ ch ∈ L, ch ≠ '.') :
    splitAtDot (L ++ '.' :: R) = (L, some R) := by
  induction L with
  | nil => simp [splitAtDot]
  | cons ch rest ih =>
      rw [List.cons_append, splitAtDot,
        if_neg (h ch (List.mem_cons_self ch rest))]
      rw [ih (fun c hc => h c (List.mem_cons_of_mem ch hc))]

theorem parseCents_int_only (L : List Char) (hnd : ∀ ch ∈ L, ch ≠ '.')
    (hne : L ≠ []) :
    parseCents ⟨L⟩ = (parseNatAux L 0).map (· * 100) := by
  unfold parseCents
  rw [show (⟨L⟩ : String).data = L from rfl, splitAtDot_no_dot _ hnd]
  show (if L = [] then none else (parseNatAux L 0).map (· * 100)) = _
  rw [if_neg hne]

theorem parseCents_int_frac (L fr : List Char) (hnd : ∀ ch ∈ L, ch ≠ '.')
    (hne : L ≠ []) :
    parseCents ⟨L ++ '.' :: fr⟩ =
      (match parseNatAux L 0, fracVal? fr with
       | some ip, some fp => some (ip * 100 + fp)
       | _, _ => none) := by
  unfold parseCents
  rw [show (⟨L ++ '.' :: fr⟩ : String).data = L ++ '.' :: fr from rfl]
  rw [splitAtDot_append_dot _ _ hnd]
  show (if L = [] then none
        else match parseNatAux L 0, fracVal? fr with
             | some ip, some fp => some (ip * 100 + fp)
             | _, _ => none) = _
  rw [if_neg hne]

theorem parseCents_render2 (c : Nat) : parseCents (render2 c) = some c := by
  unfold render2
  rw [parseCents_int_frac _ _ (natChars_no_dot _) (natChars_ne_nil _)]
  rw [parseNatAux_natChars]
  simp [fracVal?, digitVal?_digitChar (c % 100 / 10) (by omega),
    digitVal?_digitChar (c % 100 % 10) (by omega)]
  omega

theorem parseCents_jsNumberToString (c : Nat) :
    parseCents (jsNumberToString c) = some c := by
  unfold jsNumberToString
  by_cases h1 : c % 100 = 0
  · rw [if_pos h1]
    rw [parseCents_int_only _ (natChars_no_dot _) (natChars_ne_nil _)]
    rw [parseNatAux_natChars]
    simp
    omega
  · rw [if_neg h1]
    by_cases h2 : c % 10 = 0
    · rw [if_pos h2]
      rw [parseCents_int_frac _ _ (natChars_no_dot _) (natChars_ne_nil _)]
      rw [parseNatAux_natChars]
      simp [fracVal?, digitVal?_digitChar (c % 100 / 10) (by omega)]
      omega
    · rw [if_neg h2]
      rw [parseCents_int_frac _ _ (natChars_no_dot _) (natChars_ne_nil _)]
      rw [parseNatAux_natChars]
      simp [fracVal?, digitVal?_digitChar (c % 100 / 10) (by omega),
        digitVal?_digitChar (c % 10) (by omega)]
      omega

/-- C8: for a price accepted at the input boundary (non-negative, scale 2,
modelled exactly in cents), the price returned by `createSubscriptionPlan` and
the price of the plan in a subsequent `getSubscriptionPlans` both equal the
submitted value: storing it as decimal text and parsing it back is the
identity. -/
theorem subscriptionPlan_price_round_trip (db : DB)
    (input : CreateSubscriptionPlanInput) (now : Nat)
    (hname : db.plans.filter (fun p => p.name == input.name) = []) :
    ∃ db2 out, createSubscriptionPlan db input now = .ok (db2, out) ∧
      out.price = input.price ∧ out.id = db.nextPlanId ∧
      (∃ r ∈ getSubscriptionPlans db2, r.id = db.nextPlanId ∧ r.price = input.price) ∧
      parseCents (jsNumberToString input.price) = some input.price := by
  have hstored : pgNumericStore (jsNumberToString input.price) = render2 input.price := by
    unfold pgNumericStore
    rw [parseCents_jsNumberToString]
  have hprice : (parseCents (pgNumericStore (jsNumberToString input.price))).getD 0 =
      input.price := by
    rw [hstored, parseCents_render2]
    rfl
  refine ⟨{ db with
            plans := db.plans ++
              [{ id := db.nextPlanId, name := input.name
                 description := input.description
                 price := pgNumericStore (jsNumberToString input.price)
                 max_api_keys := input.max_api_keys
                 max_monthly_calls := input.max_monthly_calls
                 created_at := now }]
            nextPlanId := db.nextPlanId + 1 },
    planRowToOut
      { id := db.nextPlanId, name := input.name
        description := input.description
        price := pgNumericStore (jsNumberToString input.price)
        max_api_keys := input.max_api_keys
        max_monthly_calls := input.max_monthly_calls
        created_at := now },
    ?_, hprice, rfl, ?_, parseCents_jsNumberToString input.price⟩
  · unfold createSubscriptionPlan
    rw [if_neg (fun h => h hname)]
  · refine ⟨planRowToOut
      { id := db.nextPlanId, name := input.name
        description := input.description
        price := pgNumericStore (jsNumberToString input.price)
        max_api_keys := input.max_api_keys
        max_monthly_calls := input.max_monthly_calls
        created_at := now }, ?_, rfl, hprice⟩
    unfold getSubscriptionPlans
    exact List.mem_map.mpr ⟨_, List.mem_append_right _ (List.mem_singleton.mpr rfl), rfl⟩

/-- Witness for C8: a 9.99 price (999 cents) round-trips through create and
list on the empty store. -/
theorem subscriptionPlan_price_round_trip_witness :
    ∃ db2 out, createSubscriptionPlan initDB ⟨"Basic", none, 999, some 2, none⟩ 0 =
        .ok (db2, out) ∧ out.price = 999 ∧
      ∃ r ∈ getSubscriptionPlans db2, r.price = 999 := by
  obtain ⟨db2, out, h1, h2, -, ⟨r, hr, -, hrp⟩, -⟩ :=
    subscriptionPlan_price_round_trip initDB ⟨"Basic", none, 999, some 2, none⟩ 0
      (by decide)
  exact ⟨db2, out, h1, h2, r, hr, hrp⟩

/-- Turn inserted first: id 1, created at instant 5. -/
def tieTurnA : TurnRow :=
  { id := 1, call_session_id := 1, role := .user, text := none
    latency_ms := none, created_at := 5 }

/-- Turn inserted second: id 2, same created_at instant 5. -/
def tieTurnB : TurnRow :=
  { id := 2, call_session_id := 1, role := .assistant, text := none
    latency_ms := none, created_at := 5 }

/-- Store with one open call session holding the two equal-timestamp turns,
`tieTurnA` inserted before `tieTurnB`. -/
def tieDB : DB :=
  { plans := []
    users := [{ id := 1, email := "a@b.c", name := "A", created_at := 0
                updated_at := 0, subscription_plan_id := none }]
    apiKeys := [], voices := []
    callSessions := [{ id := 1, twilio_call_id := "CA1", user_id := 1
                       start_time := 0, end_time := none, created_at := 0 }]
    turns := [tieTurnA, tieTurnB]
    nextPlanId := 1, nextUserId := 2, nextApiKeyId := 1, nextVoiceId := 1
    nextCallSessionId := 2, nextTurnId := 3 }

/-- C6 counterexample: the select orders only by `created_at`, so the store
may return the two equal-timestamp turns with the later insertion (and larger
id) first; the claimed insertion-order (identifier-ascending) tie-break is not
guaranteed by the query. -/
theorem getTurnsByCallSession_tie_counterexample :
    getTurnsByCallSessionRel tieDB 1 (.ok [tieTurnB, tieTurnA]) ∧
    tieTurnB.created_at = tieTurnA.created_at ∧ tieTurnA.id < tieTurnB.id := by
  refine ⟨?_, rfl, by decide⟩
  show ∃ out, (Except.ok [tieTurnB, tieTurnA] : Except Err (List TurnRow)) = .ok out ∧
    out.Perm (turnsOfSession tieDB 1) ∧
    out.Pairwise (fun a b => a.created_at ≤ b.created_at)
  refine ⟨[tieTurnB, tieTurnA], rfl, ?_, ?_⟩
  · rw [show turnsOfSession tieDB 1 = [tieTurnA, tieTurnB] from rfl]
    exact List.Perm.swap tieTurnA tieTurnB []
  · simp [tieTurnA, tieTurnB]

/-- C6 amended: `getTurnsByCallSession` fails with `NotFoundError` when the
session is absent, and every list the query can return holds exactly the
session's turns (same members, same multiplicities) in non-decreasing
`created_at` order; the relative order of turns with equal `created_at` is not
specified by the query. -/
theorem getTurnsByCallSession_sorted (db : DB) (sid : Nat)
    (res : Except Err (List TurnRow))
    (h : getTurnsByCallSessionRel db sid res) :
    ((db.callSessions.filter (fun s => s.id == sid)).head? = none →
      res = .error (.NotFound ("Call session with id " ++ toString sid ++ " not found"))) ∧
    (∀ s0, (db.callSessions.filter (fun s => s.id == sid)).head? = some s0 →
      ∃ out, res = .ok out ∧
        (∀ t, t ∈ out ↔ t ∈ turnsOfSession db sid) ∧
        (∀ t, out.count t = (turnsOfSession db sid).count t) ∧
        out.Pairwise (fun a b => a.created_at ≤ b.created_at)) := by
  unfold getTurnsByCallSessionRel at h
  constructor
  · intro hn
    rw [hn] at h
    exact h
  · intro s0 hsome
    rw [hsome] at h
    obtain ⟨out, hres, hperm, hpair⟩ := h
    exact ⟨out, hres, fun t => hperm.mem_iff, fun t => hperm.count_eq t, hpair⟩

/-- Witness for the amended C6: the sorted insertion-order output is one
allowed result and satisfies the amended description. -/
theorem getTurnsByCallSession_sorted_witness :
    ∃ out, (Except.ok [tieTurnA, tieTurnB] : Except Err (List TurnRow)) = .ok out ∧
      (∀ t, t ∈ out ↔ t ∈ turnsOfSession tieDB 1) ∧
      (∀ t, out.count t = (turnsOfSession tieDB 1).count t) ∧
      out.Pairwise (fun a b => a.created_at ≤ b.created_at) := by
  have hrel : getTurnsByCallSessionRel tieDB 1 (.ok [tieTurnA, tieTurnB]) := by
    show ∃ out, (Except.ok [tieTurnA, tieTurnB] : Except Err (List TurnRow)) = .ok out ∧
      out.Perm (turnsOfSession tieDB 1) ∧
      out.Pairwise (fun a b => a.created_at ≤ b.created_at)
    refine ⟨[tieTurnA, tieTurnB], rfl, ?_, ?_⟩
    · rw [show turnsOfSession tieDB 1 = [tieTurnA, tieTurnB] from rfl]
    · simp [tieTurnA, tieTurnB]
  exact (getTurnsByCallSession_sorted tieDB 1 (.ok [tieTurnA, tieTurnB]) hrel).2
    { id := 1, twilio_call_id := "CA1", user_id := 1
      start_time := 0, end_time := none, created_at := 0 }
    (by decide)
